import Mathlib

/-!
Shallow embedding of the LC-3 virtual machine from this repository
(src/src/lc3_vm.rs, and the earlier draft src/src/main.rs).

Machine words are modelled as `Nat`; every u16 operation that can wrap in
Rust carries an explicit `% 65536`.  Arrays (`memory`, `registers`) are
modelled as total maps `Nat → Nat`, with `upd` modelling an array write.
The byte-oriented input source (stdin) is modelled as an explicit
`Option Nat` argument (the byte a non-blocking poll would yield, if any);
the output sink is modelled by returning the list of emitted bytes.
Fatal errors (Rust panics) are modelled with `Except`.
-/

/-- Pointwise update of a total map, modelling a Rust array write. -/
def upd (f : Nat → Nat) (i v : Nat) : Nat → Nat :=
  fun j => if j = i then v else f j

namespace lc3_vm

/-- Models `const KEYBOARD_STATUS_REGISTER: u16 = 0xFE00`. -/
def KEYBOARD_STATUS_REGISTER : Nat := 0xFE00

/-- Models `const KEYBOARD_DATA_REGISTER: u16 = 0xFE02`. -/
def KEYBOARD_DATA_REGISTER : Nat := 0xFE02

/-- Models `const POSITIVE: u16 = 1 << 0`. -/
def POSITIVE : Nat := 1

/-- Models `const ZERO: u16 = 1 << 1`. -/
def ZERO : Nat := 2

/-- Models `const NEGATIVE: u16 = 1 << 2`. -/
def NEGATIVE : Nat := 4

/-- Index of the program counter in the register file
(`Registers::ProgramCounter as usize = 8`). -/
def ProgramCounter : Nat := 8

/-- Index of the condition-flags register (`Registers::Condition as usize = 9`). -/
def Condition : Nat := 9

/-- The machine state of `struct VM` in src/src/lc3_vm.rs: a 65536-word
memory, a register file (indices 0-7 the general registers, 8 the program
counter, 9 the condition flags), and the running flag. -/
structure VM where
  memory : Nat → Nat
  registers : Nat → Nat
  running : Bool

/-- Models `VM::new()`: all registers and memory cells zero, not running. -/
def VM.new : VM :=
  { memory := fun _ => 0, registers := fun _ => 0, running := false }

/-- Models `swap_endian`: `original[1] as u16 + ((original[0] as u16) << 8)`.
For byte arguments (< 256) the u16 addition cannot wrap. -/
def swap_endian (b0 b1 : Nat) : Nat :=
  b1 + (b0 <<< 8)

/-- Models `sign_extend(x, bit_count)`: if bit `bit_count - 1` of `x` is set,
or `x` with `0xFFFF << bit_count`; the shifted constant is a u16, hence
the `% 65536`. -/
def sign_extend (x : Nat) (bit_count : Nat) : Nat :=
  if (x >>> (bit_count - 1)) &&& 1 > 0 then
    x ||| ((0xFFFF <<< bit_count) % 65536)
  else x

/-- The value `update_flags` stores into the condition register for a
register holding `r_val`: `ZERO` for zero, `NEGATIVE` when bit 15 is set,
`POSITIVE` otherwise. -/
def condition_for (r_val : Nat) : Nat :=
  if r_val = 0 then ZERO
  else if r_val >>> 15 > 0 then NEGATIVE
  else POSITIVE

/-- Models `VM::update_flags(r)`. -/
def update_flags (vm : VM) (r : Nat) : VM :=
  { vm with registers := upd vm.registers Condition (condition_for (vm.registers r)) }

/-- Models `VM::add(instr)`.  The u16 additions wrap modulo 2^16. -/
def add (vm : VM) (instr : Nat) : VM :=
  let r0 := (instr >>> 9) &&& 0x7
  let r1 := (instr >>> 6) &&& 0x7
  let imm_flag := (instr >>> 5) &&& 0x1
  let vm' :=
    if imm_flag > 0 then
      let imm5 := sign_extend (instr &&& 0x1F) 5
      { vm with registers := upd vm.registers r0 ((vm.registers r1 + imm5) % 65536) }
    else
      let r2 := instr &&& 0x7
      let regs := upd vm.registers r0 ((vm.registers r1 + vm.registers r2) % 65536)
      { vm with registers := regs }
  update_flags vm' r0

/-- Models `VM::and(instr)`. -/
def and (vm : VM) (instr : Nat) : VM :=
  let r0 := (instr >>> 9) &&& 0x7
  let r1 := (instr >>> 6) &&& 0x7
  let imm_flag := (instr >>> 5) &&& 0x1
  let vm' :=
    if imm_flag > 0 then
      let imm5 := sign_extend (instr &&& 0x1F) 5
      { vm with registers := upd vm.registers r0 (vm.registers r1 &&& imm5) }
    else
      let r2 := instr &&& 0x7
      { vm with registers := upd vm.registers r0 (vm.registers r1 &&& vm.registers r2) }
  update_flags vm' r0

/-- Models `VM::not(instr)`.  Rust `!x` on u16 is the bitwise complement,
i.e. xor with 0xFFFF (register values are u16, so < 65536). -/
def not (vm : VM) (instr : Nat) : VM :=
  let r0 := (instr >>> 9) &&& 0x7
  let r1 := (instr >>> 6) &&& 0x7
  let vm' := { vm with registers := upd vm.registers r0 (vm.registers r1 ^^^ 0xFFFF) }
  update_flags vm' r0

/-- Models `VM::branch(instr)`. -/
def branch (vm : VM) (instr : Nat) : VM :=
  let pc_offset := sign_extend (instr &&& 0x1ff) 9
  let cond_flag := (instr >>> 9) &&& 0x7
  if cond_flag &&& vm.registers Condition > 0 then
    let regs := upd vm.registers ProgramCounter ((vm.registers ProgramCounter + pc_offset) % 65536)
    { vm with registers := regs }
  else vm

/-- Models `VM::jump(instr)` (also handles RET). -/
def jump (vm : VM) (instr : Nat) : VM :=
  let r1 := (instr >>> 6) &&& 0x7
  { vm with registers := upd vm.registers ProgramCounter (vm.registers r1) }

/-- Models `VM::jump_register(instr)`.  First saves the program counter into R7;
then bit 11 selects the mode.  Note that the register ("jsrr") branch of
the source assigns `(instr >> 6) & 0x7` — the register index itself —
to the program counter. -/
def jump_register (vm : VM) (instr : Nat) : VM :=
  let vm1 := { vm with registers := upd vm.registers 7 (vm.registers ProgramCounter) }
  let jsr := (instr >>> 11) &&& 1
  if jsr > 0 then
    let regs := upd vm1.registers ProgramCounter
      ((vm1.registers ProgramCounter + sign_extend (instr &&& 0x7FF) 11) % 65536)
    { vm1 with registers := regs }
  else
    { vm1 with registers := upd vm1.registers ProgramCounter ((instr >>> 6) &&& 0x7) }

/-- Models `VM::mem_write(adress, val)`. -/
def mem_write (vm : VM) (adress val : Nat) : VM :=
  { vm with memory := upd vm.memory adress val }

/-- Models `VM::mem_read(address)`.  `input` is the byte a non-blocking poll of
stdin would yield (`none` when no byte is available).  Reading the
keyboard-status address first performs the poll side effect; every read
then returns the memory cell at the requested address. -/
def mem_read (vm : VM) (input : Option Nat) (address : Nat) : VM × Nat :=
  let vm' :=
    if address = KEYBOARD_STATUS_REGISTER then
      match input with
      | none => { vm with memory := upd vm.memory KEYBOARD_STATUS_REGISTER 0 }
      | some character =>
        if character ≠ 10 then
          let m := upd (upd vm.memory KEYBOARD_STATUS_REGISTER (1 <<< 15))
            KEYBOARD_DATA_REGISTER character
          { vm with memory := m }
        else
          { vm with memory := upd vm.memory KEYBOARD_STATUS_REGISTER 0 }
    else vm
  (vm', vm'.memory address)

/-- Models `VM::load(instr)`. -/
def load (vm : VM) (input : Option Nat) (instr : Nat) : VM :=
  let r0 := (instr >>> 9) &&& 0x7
  let pc_offset := sign_extend (instr &&& 0x1ff) 9
  let res := mem_read vm input ((vm.registers ProgramCounter + pc_offset) % 65536)
  let vm' := { res.1 with registers := upd res.1.registers r0 res.2 }
  update_flags vm' r0

/-- Models `VM::load_indirect(instr)`: two sequential memory reads, each of which
may poll the keyboard (hence two input parameters). -/
def load_indirect (vm : VM) (input1 input2 : Option Nat) (instr : Nat) : VM :=
  let r0 := (instr >>> 9) &&& 0x7
  let pc_offset := sign_extend (instr &&& 0x1ff) 9
  let res := mem_read vm input1 ((vm.registers ProgramCounter + pc_offset) % 65536)
  let res2 := mem_read res.1 input2 res.2
  let vm' := { res2.1 with registers := upd res2.1.registers r0 res2.2 }
  update_flags vm' r0

/-- Models `VM::load_register(instr)`. -/
def load_register (vm : VM) (input : Option Nat) (instr : Nat) : VM :=
  let offset := sign_extend (instr &&& 0b111111) 6
  let dr := (instr >>> 9) &&& 0b111
  let baser := (instr >>> 6) &&& 0b111
  let res := mem_read vm input ((vm.registers baser + offset) % 65536)
  let vm' := { res.1 with registers := upd res.1.registers dr res.2 }
  update_flags vm' dr

/-- Models `VM::load_effective_address(instr)`. -/
def load_effective_address (vm : VM) (instr : Nat) : VM :=
  let r0 := (instr >>> 9) &&& 0x7
  let pc_offset := sign_extend (instr &&& 0x1ff) 9
  let regs := upd vm.registers r0 ((vm.registers ProgramCounter + pc_offset) % 65536)
  let vm' := { vm with registers := regs }
  update_flags vm' r0

/-- Models `VM::store(instr)`. -/
def store (vm : VM) (instr : Nat) : VM :=
  let sr := (instr >>> 9) &&& 0x7
  let pc_offset := sign_extend (instr &&& 0x1ff) 9
  mem_write vm ((vm.registers ProgramCounter + pc_offset) % 65536) (vm.registers sr)

/-- Models `VM::store_indirect(instr)`. -/
def store_indirect (vm : VM) (input : Option Nat) (instr : Nat) : VM :=
  let sr := (instr >>> 9) &&& 0x7
  let pc_offset := sign_extend (instr &&& 0x1ff) 9
  let res := mem_read vm input ((vm.registers ProgramCounter + pc_offset) % 65536)
  mem_write res.1 res.2 (res.1.registers sr)

/-- Models `VM::store_register(instr)`. -/
def store_register (vm : VM) (instr : Nat) : VM :=
  let sr := (instr >>> 9) &&& 0x7
  let offset := sign_extend (instr &&& 0b111111) 6
  let baser := (instr >>> 6) &&& 0b111
  mem_write vm ((vm.registers baser + offset) % 65536) (vm.registers sr)

/-- Models `VM::get_character()` (trap 0x20): stores the read byte, masked to
8 bits, into R0.  `input` is the byte read from stdin. -/
def get_character (vm : VM) (input : Nat) : VM :=
  { vm with registers := upd vm.registers 0 (input &&& 0b11111111) }

/-- The while loop of `VM::putsp()`, with explicit fuel (the Rust loop
need not terminate).  Returns the list of bytes printed: per word the low
byte first, then — unless it is zero, which breaks the loop after the low
byte — the high byte; the loop stops at a word whose whole u16 value
is zero.  The u16 address increment wraps. -/
def putspLoop (memory : Nat → Nat) (addr fuel : Nat) : List Nat :=
  match fuel with
  | 0 => []
  | fuel + 1 =>
    let character := memory addr
    if character > 0 then
      let low := character &&& 0b11111111
      let second_part := (character >>> 8) &&& 0b11111111
      if second_part = 0 then [low]
      else low :: second_part :: putspLoop memory ((addr + 1) % 65536) fuel
    else []

/-- Models `VM::putsp()` (trap 0x24): the emitted bytes, starting at the address
held in R0. -/
def putsp (vm : VM) (fuel : Nat) : List Nat :=
  putspLoop vm.memory (vm.registers 0) fuel

/-- The read loop of `VM::read_program`: consumes the remaining byte
stream two bytes at a time.  A full 2-byte read stores the swapped word
at the running origin (a u16, whose increment wraps); end of stream
stops the loop; a 1-byte read hits the `Ok(_)` arm and panics. -/
def loadLoop : List Nat → Nat → (Nat → Nat) → Except String (Nat → Nat)
  | [], _, memory => Except.ok memory
  | [_], _, _ => Except.error ("Unexpected error reading program.")
  | b0 :: b1 :: rest, origin, memory =>
    loadLoop rest ((origin + 1) % 65536) (upd memory origin (swap_endian b0 b1))

/-- Models `VM::read_program(program)` over a byte stream.  The origin read uses
a `[0; 2]` buffer and `File::read`, which fills at most 2 bytes and does
NOT fail on a short read (`expect` only fires on an IO error): with fewer
than 2 bytes in the stream the unread buffer bytes stay zero. -/
def read_program (program : List Nat) (memory : Nat → Nat) :
    Except String (Nat → Nat) :=
  match program with
  | [] => loadLoop [] (swap_endian 0 0) memory
  | [b0] => loadLoop [] (swap_endian b0 0) memory
  | b0 :: b1 :: rest => loadLoop rest (swap_endian b0 b1) memory

/-- Models `enum OperationCodes` of src/src/lc3_vm.rs, in declaration order
(discriminants 0 to 15). -/
inductive OperationCodes where
  | Branch
  | Add
  | Load
  | Store
  | JumpRegister
  | And
  | LoadRegister
  | StoreRegister
  | Unused
  | Not
  | LoadIndirect
  | StoreIndirect
  | Jump
  | Reserved
  | LoadEffectiveAddress
  | Trap
deriving DecidableEq, Fintype

/-- Models `OperationCodes::from_integer(x)`: `transmute::<u8, OperationCodes>(x as u8)`.
The cast to u8 takes `x % 256`; the transmute is only defined when that
value is a declared discriminant (0 to 15), modelled by `none` otherwise. -/
def OperationCodes.from_integer (x : Nat) : Option OperationCodes :=
  match x % 256 with
  | 0 => some .Branch
  | 1 => some .Add
  | 2 => some .Load
  | 3 => some .Store
  | 4 => some .JumpRegister
  | 5 => some .And
  | 6 => some .LoadRegister
  | 7 => some .StoreRegister
  | 8 => some .Unused
  | 9 => some .Not
  | 10 => some .LoadIndirect
  | 11 => some .StoreIndirect
  | 12 => some .Jump
  | 13 => some .Reserved
  | 14 => some .LoadEffectiveAddress
  | 15 => some .Trap
  | _ => none

/-- Whether the dispatch `match` in `VM::start` routes the opcode to a
handler (`true`) or falls into its `_ => panic!` arm (`false`), arm for
arm as in the source. -/
def dispatch_has_handler : OperationCodes → Bool
  | .Add => true
  | .And => true
  | .Not => true
  | .Branch => true
  | .Jump => true
  | .JumpRegister => true
  | .Load => true
  | .LoadIndirect => true
  | .LoadRegister => true
  | .LoadEffectiveAddress => true
  | .Store => true
  | .StoreIndirect => true
  | .StoreRegister => true
  | .Trap => true
  | .Unused => false
  | .Reserved => false

end lc3_vm

namespace main_rs

/-!
The earlier draft in src/src/main.rs.  Its `VM` struct differs only in
array sizes and the missing running flag; to compare the two drafts on a
common state we reuse `lc3_vm.VM` (register indices agree: R0-R7 are 0-7,
`R_PC = 8`, `R_COND = 9`).
-/

/-- Models `sign_extend` of src/src/main.rs (textually the same algorithm as in
lc3_vm.rs). -/
def sign_extend (x : Nat) (bit_count : Nat) : Nat :=
  if (x >>> (bit_count - 1)) &&& 1 > 0 then
    x ||| ((0xFFFF <<< bit_count) % 65536)
  else x

/-- Models `condition_flags::FL_POS`. -/
def FL_POS : Nat := 1

/-- Models `condition_flags::FL_ZRO`. -/
def FL_ZRO : Nat := 2

/-- Models `condition_flags::FL_NEG`. -/
def FL_NEG : Nat := 4

/-- Models `VM::update_flags(r)` of src/src/main.rs: note the first test is
`r_val > 0` (giving `FL_ZRO`), not `r_val == 0`. -/
def update_flags (vm : lc3_vm.VM) (r : Nat) : lc3_vm.VM :=
  let r_val := vm.registers r
  let regs := upd vm.registers 9
    (if r_val > 0 then FL_ZRO else if r_val >>> 15 > 0 then FL_NEG else FL_POS)
  { vm with registers := regs }

/-- Models `VM::add(instr)` of src/src/main.rs. -/
def add (vm : lc3_vm.VM) (instr : Nat) : lc3_vm.VM :=
  let r0 := (instr >>> 9) &&& 0x7
  let r1 := (instr >>> 6) &&& 0x7
  let imm_flag := (instr >>> 5) &&& 0x1
  let vm' :=
    if imm_flag > 0 then
      let imm5 := sign_extend (instr &&& 0x1F) 5
      { vm with registers := upd vm.registers r0 ((vm.registers r1 + imm5) % 65536) }
    else
      let r2 := instr &&& 0x7
      let regs := upd vm.registers r0 ((vm.registers r1 + vm.registers r2) % 65536)
      { vm with registers := regs }
  update_flags vm' r0

/-- Models `VM::jsr(instr)` of src/src/main.rs: unlike `lc3_vm::jump_register`
it never writes R7. -/
def jsr (vm : lc3_vm.VM) (instr : Nat) : lc3_vm.VM :=
  let jsr_flag := (instr >>> 11) &&& 1
  if jsr_flag > 0 then
    let regs := upd vm.registers 8 ((vm.registers 8 + sign_extend (instr &&& 0x7FF) 11) % 65536)
    { vm with registers := regs }
  else
    { vm with registers := upd vm.registers 8 ((instr >>> 6) &&& 0x7) }

end main_rs

/-! ## Helper lemmas -/

theorem upd_same (f : Nat → Nat) (i v : Nat) : upd f i v i = v := by
  simp [upd]

theorem upd_ne (f : Nat → Nat) {i j : Nat} (h : j ≠ i) (v : Nat) : upd f i v j = f j := by
  simp [upd, h]

/-- C1: (code evaluated at the failing input) After the fetch step set the
program counter to 0x3001 and with R3 holding 0x1234, the register-mode
JUMP-REGISTER instruction 0x40C0 (bit 11 clear, bits 8-6 = 3) stores the
incremented program counter into R7 but then sets the program counter to 3
— the register index from bits 8-6 — not to 0x1234, the value held in R3. -/
theorem jump_register_register_mode_bug :
    (lc3_vm.jump_register
        { memory := fun _ => 0,
          registers := fun r => if r = 8 then 0x3001 else if r = 3 then 0x1234 else 0,
          running := true } 0x40C0).registers lc3_vm.ProgramCounter = 3 ∧
    (lc3_vm.jump_register
        { memory := fun _ => 0,
          registers := fun r => if r = 8 then 0x3001 else if r = 3 then 0x1234 else 0,
          running := true } 0x40C0).registers 7 = 0x3001 ∧
    (3 : Nat) ≠ 0x1234 := by
  refine ⟨by decide, by decide, by decide⟩

/-- C2: (counterexample) The two drafts are not equivalent: on the state
with R3 = 1 and R4 = 3, the instruction 0x14C4 (ADD R2, R3, R4) leaves
the condition-flags register holding 1 (POSITIVE) in the lc3_vm draft but
2 (FL_ZRO) in the main.rs draft. -/
theorem drafts_differ_at_add :
    (lc3_vm.add
        { memory := fun _ => 0,
          registers := fun r => if r = 3 then 1 else if r = 4 then 3 else 0,
          running := true } 0x14C4).registers 9 ≠
    (main_rs.add
        { memory := fun _ => 0,
          registers := fun r => if r = 3 then 1 else if r = 4 then 3 else 0,
          running := true } 0x14C4).registers 9 := by
  decide

/-- C2: (amended) The two drafts are not equivalent implementations.
`update_flags` differs: main.rs maps every nonzero register value
(including ones with the high bit set) to FL_ZRO and zero to FL_POS,
while lc3_vm.rs maps zero to ZERO, high-bit-set values to NEGATIVE and
other nonzero values to POSITIVE; and main.rs's `jsr` never writes R7,
while lc3_vm.rs's `jump_register` always saves the program counter there. -/
theorem drafts_not_equivalent :
    (∀ (vm : lc3_vm.VM) (r : Nat), vm.registers r ≠ 0 →
       (main_rs.update_flags vm r).registers 9 = main_rs.FL_ZRO) ∧
    (∀ (vm : lc3_vm.VM) (r : Nat), vm.registers r = 0 →
       (main_rs.update_flags vm r).registers 9 = main_rs.FL_POS) ∧
    (∀ (vm : lc3_vm.VM) (r : Nat), vm.registers r ≠ 0 → vm.registers r >>> 15 = 0 →
       (lc3_vm.update_flags vm r).registers lc3_vm.Condition = lc3_vm.POSITIVE) ∧
    (∀ (vm : lc3_vm.VM) (r : Nat), vm.registers r = 0 →
       (lc3_vm.update_flags vm r).registers lc3_vm.Condition = lc3_vm.ZERO) ∧
    (∀ (vm : lc3_vm.VM) (instr : Nat),
       (main_rs.jsr vm instr).registers 7 = vm.registers 7 ∧
       (lc3_vm.jump_register vm instr).registers 7 = vm.registers 8) := by
  refine ⟨?_, ?_, ?_, ?_, ?_⟩
  · intro vm r h
    have hpos : vm.registers r > 0 := Nat.pos_of_ne_zero h
    simp [main_rs.update_flags, upd_same, hpos]
  · intro vm r h
    simp [main_rs.update_flags, upd_same, h]
  · intro vm r h h15
    have hz : ¬ vm.registers r = 0 := h
    simp [lc3_vm.update_flags, lc3_vm.condition_for, lc3_vm.Condition, upd_same, hz, h15]
  · intro vm r h
    simp [lc3_vm.update_flags, lc3_vm.condition_for, lc3_vm.Condition, upd_same, h]
  · intro vm instr
    constructor
    · simp only [main_rs.jsr]
      split <;> simp [upd]
    · simp only [lc3_vm.jump_register, lc3_vm.ProgramCounter]
      split <;> simp [upd]

/-- C2: witness for `drafts_not_equivalent` at a concrete state:
R5 = 7 (nonzero, high bit clear) gives FL_ZRO = 2 in the main.rs draft
and POSITIVE = 1 in the lc3_vm draft, and on any instruction main.rs's
`jsr` leaves R7 at 0 while lc3_vm's `jump_register` writes the program
counter 0x3001 into it. -/
theorem drafts_not_equivalent_witness :
    (main_rs.update_flags
        { memory := fun _ => 0,
          registers := fun r => if r = 5 then 7 else if r = 8 then 0x3001 else 0,
          running := true } 5).registers 9 = main_rs.FL_ZRO ∧
    (lc3_vm.update_flags
        { memory := fun _ => 0,
          registers := fun r => if r = 5 then 7 else if r = 8 then 0x3001 else 0,
          running := true } 5).registers lc3_vm.Condition = lc3_vm.POSITIVE ∧
    (main_rs.jsr
        { memory := fun _ => 0,
          registers := fun r => if r = 5 then 7 else if r = 8 then 0x3001 else 0,
          running := true } 0x4800).registers 7 = 0 ∧
    (lc3_vm.jump_register
        { memory := fun _ => 0,
          registers := fun r => if r = 5 then 7 else if r = 8 then 0x3001 else 0,
          running := true } 0x4800).registers 7 = 0x3001 := by
  refine ⟨drafts_not_equivalent.1 _ 5 (by decide), ?_, ?_, ?_⟩
  · exact (drafts_not_equivalent.2.2.1 _ 5 (by decide) (by decide)).trans (by decide)
  · exact ((drafts_not_equivalent.2.2.2.2 _ 0x4800).1).trans (by decide)
  · exact ((drafts_not_equivalent.2.2.2.2 _ 0x4800).2).trans (by decide)

/-- C4: (counterexample) With the condition register holding NEGATIVE and
the program counter at 0x3001, GETC on byte 65 writes R0 = 65 but leaves
the condition register at NEGATIVE, although the flag computed from the
new value would be POSITIVE; likewise JUMP-REGISTER (instruction 0x4800)
writes R7 = 0x3001 and leaves the flags untouched. -/
theorem get_character_ignores_flags :
    (lc3_vm.get_character
        { memory := fun _ => 0,
          registers := fun r => if r = 9 then 4 else if r = 8 then 0x3001 else 0,
          running := true } 65).registers lc3_vm.Condition = lc3_vm.NEGATIVE ∧
    (lc3_vm.get_character
        { memory := fun _ => 0,
          registers := fun r => if r = 9 then 4 else if r = 8 then 0x3001 else 0,
          running := true } 65).registers 0 = 65 ∧
    lc3_vm.condition_for 65 = lc3_vm.POSITIVE ∧
    lc3_vm.NEGATIVE ≠ lc3_vm.POSITIVE ∧
    (lc3_vm.jump_register
        { memory := fun _ => 0,
          registers := fun r => if r = 9 then 4 else if r = 8 then 0x3001 else 0,
          running := true } 0x4800).registers lc3_vm.Condition = lc3_vm.NEGATIVE ∧
    (lc3_vm.jump_register
        { memory := fun _ => 0,
          registers := fun r => if r = 9 then 4 else if r = 8 then 0x3001 else 0,
          running := true } 0x4800).registers 7 = 0x3001 ∧
    lc3_vm.condition_for 0x3001 = lc3_vm.POSITIVE := by
  decide

/-- C4: (amended) Not every register-writing instruction recomputes the
condition flags: GETC and JUMP-REGISTER write R0 and R7 without touching
the condition register, while ADD, AND, NOT, LOAD, LOAD-INDIRECT,
LOAD-REGISTER and LOAD-EFFECTIVE-ADDRESS do recompute it as
`condition_for` of the destination register's new value. -/
theorem flag_update_policy (vm : lc3_vm.VM) (input1 input2 : Option Nat) (b instr : Nat) :
    (lc3_vm.get_character vm b).registers lc3_vm.Condition = vm.registers lc3_vm.Condition ∧
    (lc3_vm.jump_register vm instr).registers lc3_vm.Condition
      = vm.registers lc3_vm.Condition ∧
    (lc3_vm.add vm instr).registers lc3_vm.Condition
      = lc3_vm.condition_for ((lc3_vm.add vm instr).registers ((instr >>> 9) &&& 7)) ∧
    (lc3_vm.and vm instr).registers lc3_vm.Condition
      = lc3_vm.condition_for ((lc3_vm.and vm instr).registers ((instr >>> 9) &&& 7)) ∧
    (lc3_vm.not vm instr).registers lc3_vm.Condition
      = lc3_vm.condition_for ((lc3_vm.not vm instr).registers ((instr >>> 9) &&& 7)) ∧
    (lc3_vm.load vm input1 instr).registers lc3_vm.Condition
      = lc3_vm.condition_for ((lc3_vm.load vm input1 instr).registers ((instr >>> 9) &&& 7)) ∧
    (lc3_vm.load_indirect vm input1 input2 instr).registers lc3_vm.Condition
      = lc3_vm.condition_for
          ((lc3_vm.load_indirect vm input1 input2 instr).registers ((instr >>> 9) &&& 7)) ∧
    (lc3_vm.load_register vm input1 instr).registers lc3_vm.Condition
      = lc3_vm.condition_for
          ((lc3_vm.load_register vm input1 instr).registers ((instr >>> 9) &&& 7)) ∧
    (lc3_vm.load_effective_address vm instr).registers lc3_vm.Condition
      = lc3_vm.condition_for
          ((lc3_vm.load_effective_address vm instr).registers ((instr >>> 9) &&& 7)) := by
  have hne : ((instr >>> 9) &&& 7) ≠ 9 := by
    have h := @Nat.and_le_right (instr >>> 9) 7
    omega
  refine ⟨?_, ?_, ?_, ?_, ?_, ?_, ?_, ?_, ?_⟩
  · simp [lc3_vm.get_character, lc3_vm.Condition, upd]
  · simp only [lc3_vm.jump_register, lc3_vm.ProgramCounter, lc3_vm.Condition]
    split <;> simp [upd]
  · simp only [lc3_vm.add, lc3_vm.update_flags, lc3_vm.Condition]
    split <;> simp [upd, hne]
  · simp only [lc3_vm.and, lc3_vm.update_flags, lc3_vm.Condition]
    split <;> simp [upd, hne]
  · simp [lc3_vm.not, lc3_vm.update_flags, lc3_vm.Condition, upd, hne]
  · simp [lc3_vm.load, lc3_vm.update_flags, lc3_vm.Condition, upd, hne]
  · simp [lc3_vm.load_indirect, lc3_vm.update_flags, lc3_vm.Condition, upd, hne]
  · simp [lc3_vm.load_register, lc3_vm.update_flags, lc3_vm.Condition, upd, hne]
  · simp [lc3_vm.load_effective_address, lc3_vm.update_flags, lc3_vm.Condition, upd, hne]

/-- C5: (counterexample) The initial state produced by `VM::new` holds 0
in the condition register — none of POSITIVE, ZERO, NEGATIVE is set. -/
theorem initial_condition_flag_zero :
    lc3_vm.VM.new.registers lc3_vm.Condition = 0 ∧
    (0 : Nat) ≠ lc3_vm.POSITIVE ∧ (0 : Nat) ≠ lc3_vm.ZERO ∧ (0 : Nat) ≠ lc3_vm.NEGATIVE := by
  decide

/-- C5: (amended) Every write of the condition register goes through
`update_flags`, which always stores exactly one of POSITIVE (1), ZERO (2)
or NEGATIVE (4); the initial state from `VM::new`, however, holds 0 there
— no flag at all — until the first flag-writing instruction runs. -/
theorem condition_flag_one_of_three :
    (∀ (vm : lc3_vm.VM) (r : Nat),
       (lc3_vm.update_flags vm r).registers lc3_vm.Condition = lc3_vm.POSITIVE ∨
       (lc3_vm.update_flags vm r).registers lc3_vm.Condition = lc3_vm.ZERO ∨
       (lc3_vm.update_flags vm r).registers lc3_vm.Condition = lc3_vm.NEGATIVE) ∧
    lc3_vm.VM.new.registers lc3_vm.Condition = 0 := by
  constructor
  · intro vm r
    by_cases h0 : vm.registers r = 0
    · simp [lc3_vm.update_flags, lc3_vm.condition_for, lc3_vm.Condition, upd, h0,
        lc3_vm.POSITIVE, lc3_vm.ZERO, lc3_vm.NEGATIVE]
    · by_cases h15 : vm.registers r >>> 15 > 0
      · simp [lc3_vm.update_flags, lc3_vm.condition_for, lc3_vm.Condition, upd, h0, h15,
          lc3_vm.POSITIVE, lc3_vm.ZERO, lc3_vm.NEGATIVE]
      · simp [lc3_vm.update_flags, lc3_vm.condition_for, lc3_vm.Condition, upd, h0, h15,
          lc3_vm.POSITIVE, lc3_vm.ZERO, lc3_vm.NEGATIVE]
  · decide

/-- For a region of words that each carry two nonzero bytes, followed by
a zero word, the putsp loop emits low byte then high byte of every word,
in order (helper for the PUTSP claim). -/
theorem putspLoop_string : ∀ (ws : List Nat) (memory : Nat → Nat) (addr fuel : Nat),
    (∀ w ∈ ws, w &&& 255 ≠ 0 ∧ (w >>> 8) &&& 255 ≠ 0) →
    (∀ i, i < ws.length → memory (addr + i) = ws.getD i 0) →
    memory (addr + ws.length) = 0 →
    addr + ws.length < 65536 →
    ws.length < fuel →
    lc3_vm.putspLoop memory addr fuel
      = ws.flatMap (fun w => [w &&& 255, (w >>> 8) &&& 255])
  | [], memory, addr, fuel, _, _, hend, _, _ => by
      have h0 : memory addr = 0 := by simpa using hend
      cases fuel with
      | zero => simp [lc3_vm.putspLoop]
      | succ f => simp [lc3_vm.putspLoop, h0]
  | w :: ws, memory, addr, fuel, hws, hmem, hend, hlt, hfuel => by
      obtain ⟨hlow, hhigh⟩ := hws w (List.mem_cons_self _ _)
      cases fuel with
      | zero => simp at hfuel
      | succ f =>
        have hw : memory addr = w := by simpa using hmem 0 (by simp)
        have hwpos : memory addr > 0 := by
          rw [hw]
          rcases Nat.eq_zero_or_pos w with h | h
          · subst h; simp at hlow
          · exact h
        have hlen : addr + (ws.length + 1) < 65536 := by simpa using hlt
        have hmod : (addr + 1) % 65536 = addr + 1 := Nat.mod_eq_of_lt (by omega)
        have ih := putspLoop_string ws memory (addr + 1) f
          (fun x hx => hws x (List.mem_cons_of_mem _ hx))
          (fun i hi => by
            have h := hmem (i + 1) (by simpa using Nat.succ_lt_succ hi)
            have harith : addr + (i + 1) = addr + 1 + i := by omega
            rw [harith] at h
            simpa using h)
          (by
            have h := hend
            simp only [List.length_cons] at h
            rw [show addr + (ws.length + 1) = addr + 1 + ws.length from by omega] at h
            exact h)
          (by omega)
          (by simpa using Nat.lt_of_succ_lt_succ hfuel)
        simp only [lc3_vm.putspLoop, hw, hmod, ih]
        rw [if_pos (by omega : w > 0), if_neg hhigh]
        simp

/-- C6: (counterexample) PUTSP on the memory region [0x4100, 0x4242, 0]
— whose first word has low byte zero but high byte 0x41 — does NOT stop
at that word: it emits the NUL low byte, the high byte 0x41, and then
continues into the next word, producing [0, 65, 66, 66]. -/
theorem putsp_low_zero_word_not_terminating :
    lc3_vm.putsp
        { memory := fun a => if a = 0 then 0x4100 else if a = 1 then 0x4242 else 0,
          registers := fun _ => 0,
          running := true } 10 = [0, 65, 66, 66] ∧
    (0x4100 : Nat) &&& 255 = 0 ∧
    lc3_vm.putsp
        { memory := fun a => if a = 0 then 0x4100 else if a = 1 then 0x4242 else 0,
          registers := fun _ => 0,
          running := true } 10 ≠ ([] : List Nat) := by
  refine ⟨by decide, by decide, by decide⟩

/-- C6: (amended) The putsp loop stops before emitting anything at a word
whose whole 16-bit value is zero; at a nonzero word whose high byte is
zero it emits the low byte and stops; at a word with nonzero high byte it
emits low byte then high byte and continues with the next address — in
particular a word with low byte zero but nonzero high byte does not stop
the output.  For a region of words each holding two nonzero bytes
followed by a zero word it emits exactly the packed bytes in order. -/
theorem putsp_stop_conditions :
    (∀ (memory : Nat → Nat) (addr fuel : Nat), memory addr = 0 →
       lc3_vm.putspLoop memory addr fuel = []) ∧
    (∀ (memory : Nat → Nat) (addr fuel : Nat),
       memory addr ≠ 0 → (memory addr >>> 8) &&& 255 = 0 →
       lc3_vm.putspLoop memory addr (fuel + 1) = [memory addr &&& 255]) ∧
    (∀ (memory : Nat → Nat) (addr fuel : Nat),
       memory addr &&& 255 = 0 → (memory addr >>> 8) &&& 255 ≠ 0 →
       lc3_vm.putspLoop memory addr (fuel + 1)
         = 0 :: ((memory addr >>> 8) &&& 255)
             :: lc3_vm.putspLoop memory ((addr + 1) % 65536) fuel) ∧
    (∀ (ws : List Nat) (memory : Nat → Nat) (addr fuel : Nat),
       (∀ w ∈ ws, w &&& 255 ≠ 0 ∧ (w >>> 8) &&& 255 ≠ 0) →
       (∀ i, i < ws.length → memory (addr + i) = ws.getD i 0) →
       memory (addr + ws.length) = 0 →
       addr + ws.length < 65536 →
       ws.length < fuel →
       lc3_vm.putspLoop memory addr fuel
         = ws.flatMap (fun w => [w &&& 255, (w >>> 8) &&& 255])) := by
  refine ⟨?_, ?_, ?_, putspLoop_string⟩
  · intro memory addr fuel h0
    cases fuel with
    | zero => simp [lc3_vm.putspLoop]
    | succ f => simp [lc3_vm.putspLoop, h0]
  · intro memory addr fuel hnz hh
    have hpos : memory addr > 0 := Nat.pos_of_ne_zero hnz
    simp [lc3_vm.putspLoop, hpos, hh]
  · intro memory addr fuel hlow hh
    have hnz : memory addr ≠ 0 := by
      intro h0
      rw [h0] at hh
      simp at hh
    have hpos : memory addr > 0 := Nat.pos_of_ne_zero hnz
    simp only [lc3_vm.putspLoop]
    rw [if_pos hpos, if_neg hh, hlow]

/-- C6: witness for `putsp_stop_conditions` — a word 72 ('H', high byte
zero) emits just [72] and stops, and the packed string [0x4948]
("HI" in one word) followed by a zero word emits [72, 73]. -/
theorem putsp_stop_conditions_witness :
    lc3_vm.putspLoop (fun a => if a = 0 then 72 else 0) 0 1 = [72] ∧
    lc3_vm.putspLoop (fun a => if a = 0 then 18760 else 0) 0 2 = [72, 73] := by
  constructor
  · have h := putsp_stop_conditions.2.1 (fun a => if a = 0 then 72 else 0) 0 0
      (by decide) (by decide)
    simpa using h
  · have h := putsp_stop_conditions.2.2.2 [18760] (fun a => if a = 0 then 18760 else 0) 0 2
      (by decide) (by decide) (by decide) (by decide) (by decide)
    exact h.trans (by decide)

/-- C9: (counterexample) For the 11-bit field 1024 (0b100_0000_0000, top
bit set), the sign-extended value is 0xFC00, whose top 10 bits are
0b1111110000 — not all ones: only the top 16-k = 5 bits are set. -/
theorem sign_extend_top_ten_bits_false :
    (1024 >>> 10) &&& 1 = 1 ∧
    (1024 : Nat) < 2 ^ 11 ∧
    lc3_vm.sign_extend 1024 11 = 64512 ∧
    lc3_vm.sign_extend 1024 11 >>> 6 ≠ 1023 := by
  refine ⟨by decide, by decide, by decide, by decide⟩

/-- C9: (amended) For a k-bit field `x` (1 ≤ k ≤ 15) whose top bit is 1,
`sign_extend x k` keeps the low k bits equal to `x`, sets the top 16-k
bits (not a fixed 10) all to 1, and stays a u16; for top bit 0 (any
k ≤ 16) the result equals `x` zero-extended.  (At k = 16 with top bit
set the source's `0xFFFF << bit_count` overflows the u16 shift.) -/
theorem sign_extend_spec :
    (∀ (x k : Nat), 1 ≤ k → k ≤ 15 → x < 2 ^ k → (x >>> (k - 1)) &&& 1 = 1 →
       lc3_vm.sign_extend x k % 2 ^ k = x ∧
       lc3_vm.sign_extend x k >>> k = 2 ^ (16 - k) - 1 ∧
       lc3_vm.sign_extend x k < 65536) ∧
    (∀ (x k : Nat), 1 ≤ k → k ≤ 16 → x < 2 ^ k → (x >>> (k - 1)) &&& 1 = 0 →
       lc3_vm.sign_extend x k = x) := by
  constructor
  · intro x k h1 h15 hx htop
    have hc : (65535 <<< k) % 65536 = 2 ^ k * (2 ^ (16 - k) - 1) := by
      have key : ∀ j, j < 16 → 1 ≤ j →
          (65535 <<< j) % 65536 = 2 ^ j * (2 ^ (16 - j) - 1) := by decide
      exact key k (by omega) h1
    have hor : x ||| 2 ^ k * (2 ^ (16 - k) - 1) = 2 ^ k * (2 ^ (16 - k) - 1) + x := by
      rw [Nat.or_comm]
      exact (Nat.mul_add_lt_is_or hx _).symm
    have hse : lc3_vm.sign_extend x k = 2 ^ k * (2 ^ (16 - k) - 1) + x := by
      unfold lc3_vm.sign_extend
      rw [if_pos (by omega : (x >>> (k - 1)) &&& 1 > 0)]
      norm_num [hc, hor]
    refine ⟨?_, ?_, ?_⟩
    · rw [hse, Nat.mul_add_mod, Nat.mod_eq_of_lt hx]
    · rw [hse, Nat.shiftRight_eq_div_pow, Nat.mul_add_div (Nat.two_pow_pos k),
        Nat.div_eq_of_lt hx]
      omega
    · rw [hse]
      have hone : 1 ≤ 2 ^ (16 - k) := Nat.one_le_two_pow
      have hlt : 2 ^ k * (2 ^ (16 - k) - 1) + x < 2 ^ k * (2 ^ (16 - k) - 1) + 2 ^ k := by
        omega
      have heq : 2 ^ k * (2 ^ (16 - k) - 1) + 2 ^ k = 2 ^ k * 2 ^ (16 - k) := by
        have h' : 2 ^ (16 - k) - 1 + 1 = 2 ^ (16 - k) := by omega
        calc 2 ^ k * (2 ^ (16 - k) - 1) + 2 ^ k
            = 2 ^ k * (2 ^ (16 - k) - 1 + 1) := by ring
          _ = 2 ^ k * 2 ^ (16 - k) := by rw [h']
      have hpow : (2 : Nat) ^ k * 2 ^ (16 - k) = 65536 := by
        rw [← pow_add]
        rw [show k + (16 - k) = 16 from by omega]
        norm_num
      omega
  · intro x k _ _ _ htop
    simp [lc3_vm.sign_extend, htop]

/-- C9: witness for `sign_extend_spec` — the 5-bit field 18 (top bit set)
extends with its low 5 bits preserved and its top 11 bits all ones, and
the 5-bit field 5 (top bit clear) extends to itself. -/
theorem sign_extend_spec_witness :
    lc3_vm.sign_extend 18 5 % 2 ^ 5 = 18 ∧
    lc3_vm.sign_extend 18 5 >>> 5 = 2 ^ 11 - 1 ∧
    lc3_vm.sign_extend 5 5 = 5 := by
  obtain ⟨h1, h2, _⟩ := sign_extend_spec.1 18 5 (by decide) (by decide) (by decide) (by decide)
  exact ⟨h1, h2, sign_extend_spec.2 5 5 (by decide) (by decide) (by decide) (by decide)⟩

/-- For a u16 value, the flag chosen by `condition_for` matches the
signed interpretation: zero gives ZERO, high bit set (value ≥ 32768)
gives NEGATIVE, anything else POSITIVE. -/
theorem condition_for_eq (v : Nat) (hv : v < 65536) :
    lc3_vm.condition_for v
      = (if v = 0 then lc3_vm.ZERO
         else if 32768 ≤ v then lc3_vm.NEGATIVE
         else lc3_vm.POSITIVE) := by
  unfold lc3_vm.condition_for
  have h : v >>> 15 = v / 32768 := by
    rw [Nat.shiftRight_eq_div_pow]
  by_cases hz : v = 0
  · simp [hz]
  · by_cases hn : 32768 ≤ v
    · have hpos : 0 < v / 32768 := Nat.div_pos hn (by norm_num)
      simp [hz, hn, h, hpos]
    · have hdiv0 : v / 32768 = 0 := Nat.div_eq_of_lt (by omega)
      simp [hz, hn, h, hdiv0]

/-- C7: For every destination and source register pair and every 5-bit
immediate, the immediate-mode ADD instruction stores
(source value + sign_extend(imm, 5)) mod 2^16 — wrapping, never trapping
— into the destination, and sets exactly one condition flag according to
the signed interpretation of the stored 16-bit result. -/
theorem add_immediate_spec (vm : lc3_vm.VM) (d s i : Nat)
    (hd : d < 8) (hs : s < 8) (hi : i < 32) :
    (lc3_vm.add vm (4096 + 512 * d + 64 * s + 32 + i)).registers d
        = (vm.registers s + lc3_vm.sign_extend i 5) % 65536 ∧
    (lc3_vm.add vm (4096 + 512 * d + 64 * s + 32 + i)).registers lc3_vm.Condition
        = (if (vm.registers s + lc3_vm.sign_extend i 5) % 65536 = 0 then lc3_vm.ZERO
           else if 32768 ≤ (vm.registers s + lc3_vm.sign_extend i 5) % 65536 then
             lc3_vm.NEGATIVE
           else lc3_vm.POSITIVE) ∧
    (vm.registers s + lc3_vm.sign_extend i 5) % 65536 < 65536 ∧
    ((lc3_vm.add vm (4096 + 512 * d + 64 * s + 32 + i)).registers lc3_vm.Condition
        = lc3_vm.POSITIVE ∨
     (lc3_vm.add vm (4096 + 512 * d + 64 * s + 32 + i)).registers lc3_vm.Condition
        = lc3_vm.ZERO ∨
     (lc3_vm.add vm (4096 + 512 * d + 64 * s + 32 + i)).registers lc3_vm.Condition
        = lc3_vm.NEGATIVE) := by
  have hand7 : ∀ y : Nat, y &&& 7 = y % 8 := by
    intro y
    have h := Nat.and_pow_two_sub_one_eq_mod y 3
    norm_num at h
    exact h
  have hand31 : ∀ y : Nat, y &&& 31 = y % 32 := by
    intro y
    have h := Nat.and_pow_two_sub_one_eq_mod y 5
    norm_num at h
    exact h
  have e1 : ((4096 + 512 * d + 64 * s + 32 + i) >>> 9) &&& 7 = d := by
    rw [Nat.shiftRight_eq_div_pow, hand7, show (2 : Nat) ^ 9 = 512 from by norm_num]
    omega
  have e2 : ((4096 + 512 * d + 64 * s + 32 + i) >>> 6) &&& 7 = s := by
    rw [Nat.shiftRight_eq_div_pow, hand7, show (2 : Nat) ^ 6 = 64 from by norm_num]
    omega
  have e3 : ((4096 + 512 * d + 64 * s + 32 + i) >>> 5) &&& 1 = 1 := by
    rw [Nat.shiftRight_eq_div_pow, Nat.and_one_is_mod,
      show (2 : Nat) ^ 5 = 32 from by norm_num]
    omega
  have e4 : (4096 + 512 * d + 64 * s + 32 + i) &&& 31 = i := by
    rw [hand31]
    omega
  have hd9 : d ≠ 9 := by omega
  have hR : (vm.registers s + lc3_vm.sign_extend i 5) % 65536 < 65536 :=
    Nat.mod_lt _ (by norm_num)
  have hdest :
      (lc3_vm.add vm (4096 + 512 * d + 64 * s + 32 + i)).registers d
        = (vm.registers s + lc3_vm.sign_extend i 5) % 65536 := by
    simp [lc3_vm.add, lc3_vm.update_flags, lc3_vm.Condition, e1, e2, e3, e4, upd, hd9]
  have hcond :
      (lc3_vm.add vm (4096 + 512 * d + 64 * s + 32 + i)).registers lc3_vm.Condition
        = lc3_vm.condition_for ((vm.registers s + lc3_vm.sign_extend i 5) % 65536) := by
    simp [lc3_vm.add, lc3_vm.update_flags, lc3_vm.Condition, e1, e2, e3, e4, upd]
  have hcond' := hcond.trans (condition_for_eq _ hR)
  refine ⟨hdest, hcond', hR, ?_⟩
  rw [hcond']
  split_ifs <;> simp

/-- C7: witness for `add_immediate_spec` — ADD R2, R3, #18 on the zero
state (the immediate 18 sign-extends to 65522) stores 65522 in R2 and
sets the NEGATIVE flag, touching no other flag value. -/
theorem add_immediate_spec_witness :
    (lc3_vm.add lc3_vm.VM.new (4096 + 512 * 2 + 64 * 3 + 32 + 18)).registers 2
        = (lc3_vm.VM.new.registers 3 + lc3_vm.sign_extend 18 5) % 65536 ∧
    (lc3_vm.add lc3_vm.VM.new (4096 + 512 * 2 + 64 * 3 + 32 + 18)).registers lc3_vm.Condition
        = (if (lc3_vm.VM.new.registers 3 + lc3_vm.sign_extend 18 5) % 65536 = 0 then lc3_vm.ZERO
           else if 32768 ≤ (lc3_vm.VM.new.registers 3 + lc3_vm.sign_extend 18 5) % 65536 then
             lc3_vm.NEGATIVE
           else lc3_vm.POSITIVE) := by
  obtain ⟨h1, h2, _, _⟩ :=
    add_immediate_spec lc3_vm.VM.new 2 3 18 (by decide) (by decide) (by decide)
  exact ⟨h1, h2⟩

/-- C8: Every memory read first polls the keyboard exactly when the
requested address is the keyboard-status address 0xFE00: no available
byte sets the status cell to 0; an available non-newline byte sets the
status cell to 0x8000 (bit 15) and the data cell 0xFE02 to the byte; an
available newline sets the status cell to 0.  Every read then returns
the (possibly just-updated) memory cell at the requested address; reads
at other addresses and all writes are plain array accesses, and neither
touches the registers. -/
theorem mem_read_keyboard_spec (vm : lc3_vm.VM) (input : Option Nat) (address b a v : Nat) :
    ((lc3_vm.mem_read vm input address).2
        = (lc3_vm.mem_read vm input address).1.memory address) ∧
    (address ≠ 0xFE00 → lc3_vm.mem_read vm input address = (vm, vm.memory address)) ∧
    ((lc3_vm.mem_read vm none 0xFE00).1.memory 0xFE00 = 0 ∧
       (∀ c, c ≠ 0xFE00 → (lc3_vm.mem_read vm none 0xFE00).1.memory c = vm.memory c)) ∧
    (b ≠ 10 →
       (lc3_vm.mem_read vm (some b) 0xFE00).1.memory 0xFE00 = 32768 ∧
       (lc3_vm.mem_read vm (some b) 0xFE00).1.memory 0xFE02 = b ∧
       (∀ c, c ≠ 0xFE00 → c ≠ 0xFE02 →
          (lc3_vm.mem_read vm (some b) 0xFE00).1.memory c = vm.memory c)) ∧
    ((lc3_vm.mem_read vm (some 10) 0xFE00).1.memory 0xFE00 = 0 ∧
       (∀ c, c ≠ 0xFE00 → (lc3_vm.mem_read vm (some 10) 0xFE00).1.memory c = vm.memory c)) ∧
    ((lc3_vm.mem_read vm input address).1.registers = vm.registers) ∧
    ((lc3_vm.mem_write vm a v).memory a = v ∧
       (∀ c, c ≠ a → (lc3_vm.mem_write vm a v).memory c = vm.memory c) ∧
       (lc3_vm.mem_write vm a v).registers = vm.registers) := by
  refine ⟨rfl, ?_, ⟨?_, ?_⟩, ?_, ⟨?_, ?_⟩, ?_, ?_, ?_, ?_⟩
  · intro h
    simp [lc3_vm.mem_read, lc3_vm.KEYBOARD_STATUS_REGISTER, h]
  · simp [lc3_vm.mem_read, lc3_vm.KEYBOARD_STATUS_REGISTER, upd]
  · intro c hc
    simp [lc3_vm.mem_read, lc3_vm.KEYBOARD_STATUS_REGISTER, upd, hc]
  · intro hb
    refine ⟨?_, ?_, ?_⟩
    · simp [lc3_vm.mem_read, lc3_vm.KEYBOARD_STATUS_REGISTER,
        lc3_vm.KEYBOARD_DATA_REGISTER, upd, hb]
    · simp [lc3_vm.mem_read, lc3_vm.KEYBOARD_STATUS_REGISTER,
        lc3_vm.KEYBOARD_DATA_REGISTER, upd, hb]
    · intro c hc1 hc2
      simp [lc3_vm.mem_read, lc3_vm.KEYBOARD_STATUS_REGISTER,
        lc3_vm.KEYBOARD_DATA_REGISTER, upd, hb, hc1, hc2]
  · simp [lc3_vm.mem_read, lc3_vm.KEYBOARD_STATUS_REGISTER, upd]
  · intro c hc
    simp [lc3_vm.mem_read, lc3_vm.KEYBOARD_STATUS_REGISTER, upd, hc]
  · cases input with
    | none =>
      by_cases h : address = 0xFE00 <;>
        simp [lc3_vm.mem_read, lc3_vm.KEYBOARD_STATUS_REGISTER, h]
    | some c =>
      by_cases h : address = 0xFE00 <;> by_cases hc : c = 10 <;>
        simp [lc3_vm.mem_read, lc3_vm.KEYBOARD_STATUS_REGISTER, h, hc]
  · simp [lc3_vm.mem_write, upd]
  · intro c hc
    simp [lc3_vm.mem_write, upd, hc]
  · simp [lc3_vm.mem_write]

/-- C8: witness for `mem_read_keyboard_spec` — polling with byte 65
available sets the status cell to 0x8000 and the data cell to 65, a read
at address 3 is a plain access, and a write at address 5 stores 9. -/
theorem mem_read_keyboard_spec_witness :
    (lc3_vm.mem_read lc3_vm.VM.new (some 65) 0xFE00).1.memory 0xFE00 = 32768 ∧
    (lc3_vm.mem_read lc3_vm.VM.new (some 65) 0xFE00).1.memory 0xFE02 = 65 ∧
    lc3_vm.mem_read lc3_vm.VM.new (some 65) 3 = (lc3_vm.VM.new, 0) ∧
    (lc3_vm.mem_write lc3_vm.VM.new 5 9).memory 5 = 9 := by
  have h := mem_read_keyboard_spec lc3_vm.VM.new (some 65) 3 65 5 9
  obtain ⟨hs, hd, _⟩ := h.2.2.2.1 (by decide)
  refine ⟨hs, hd, ?_, h.2.2.2.2.2.2.1⟩
  exact (h.2.1 (by decide)).trans rfl

/-- C10: For every 16-bit instruction word the opcode `word >> 12` is in
0..15, each of those values is a declared `OperationCodes` discriminant
(so the unchecked integer-to-enum conversion never yields an invalid
value) and the dispatch match panics exactly for the opcode values 8
(Unused) and 13 (Reserved); on the enum itself, exactly the variants
Unused and Reserved lack a handler. -/
theorem decode_total_spec (w : Nat) (hw : w < 65536) :
    w >>> 12 < 16 ∧
    (∃ oc, lc3_vm.OperationCodes.from_integer (w >>> 12) = some oc) ∧
    (∀ oc, lc3_vm.OperationCodes.from_integer (w >>> 12) = some oc →
       (lc3_vm.dispatch_has_handler oc = false ↔ w >>> 12 = 8 ∨ w >>> 12 = 13)) ∧
    (∀ oc : lc3_vm.OperationCodes,
       lc3_vm.dispatch_has_handler oc = false ↔
         (oc = lc3_vm.OperationCodes.Unused ∨ oc = lc3_vm.OperationCodes.Reserved)) := by
  have h12 : w >>> 12 = w / 4096 := by
    rw [Nat.shiftRight_eq_div_pow]
  have hlt : w >>> 12 < 16 := by
    rw [h12]
    omega
  have key : ∀ k, k < 16 →
      (∃ oc, lc3_vm.OperationCodes.from_integer k = some oc) ∧
      (∀ oc, lc3_vm.OperationCodes.from_integer k = some oc →
         (lc3_vm.dispatch_has_handler oc = false ↔ k = 8 ∨ k = 13)) := by
    decide
  exact ⟨hlt, (key _ hlt).1, (key _ hlt).2, by decide⟩

/-- C10: witness for `decode_total_spec` at the word 0xD123: its opcode
13 is in range and converts to a declared variant. -/
theorem decode_total_spec_witness :
    53539 >>> 12 < 16 ∧
    (∃ oc, lc3_vm.OperationCodes.from_integer (53539 >>> 12) = some oc) := by
  obtain ⟨h1, h2, _, _⟩ := decode_total_spec 53539 (by decide)
  exact ⟨h1, h2⟩

/-- An odd number of remaining bytes always makes the read loop hit its
truncated-word arm (helper for the image-loader claim). -/
theorem loadLoop_odd : ∀ (rest : List Nat) (origin : Nat) (memory : Nat → Nat),
    rest.length % 2 = 1 →
    lc3_vm.loadLoop rest origin memory
      = Except.error ("Unexpected error reading program.")
  | [], _, _, h => by simp at h
  | [_], _, _, _ => rfl
  | b0 :: b1 :: rest, origin, memory, h => by
      have h' : rest.length % 2 = 1 := by
        simp [List.length_cons] at h
        omega
      exact loadLoop_odd rest ((origin + 1) % 65536)
        (upd memory origin (lc3_vm.swap_endian b0 b1)) h'

/-- An even number of remaining bytes loads successfully; word i lands at
origin + i and untouched addresses keep their old contents (helper for
the image-loader claim; the no-wrap bound keeps the u16 origin increments
from wrapping). -/
theorem loadLoop_even : ∀ (rest : List Nat) (origin : Nat) (memory : Nat → Nat),
    rest.length % 2 = 0 → origin + rest.length / 2 ≤ 65536 →
    ∃ m', lc3_vm.loadLoop rest origin memory = Except.ok m' ∧
      (∀ i, 2 * i + 1 < rest.length →
         m' (origin + i)
           = lc3_vm.swap_endian (rest.getD (2 * i) 0) (rest.getD (2 * i + 1) 0)) ∧
      (∀ c, (∀ j, 2 * j + 1 < rest.length → c ≠ origin + j) → m' c = memory c)
  | [], _, memory, _, _ =>
      ⟨memory, rfl, fun _ hi => absurd hi (by simp), fun _ _ => rfl⟩
  | [_], _, _, h, _ => by simp at h
  | b0 :: b1 :: rest, origin, memory, h, hle => by
      have h' : rest.length % 2 = 0 := by
        simp [List.length_cons] at h
        omega
      have hlen : origin + (rest.length / 2 + 1) ≤ 65536 := by
        simp [List.length_cons] at hle
        omega
      by_cases hcase : origin + 1 < 65536
      · have hmod : (origin + 1) % 65536 = origin + 1 := Nat.mod_eq_of_lt hcase
        obtain ⟨m', hok, hget, hframe⟩ := loadLoop_even rest (origin + 1)
          (upd memory origin (lc3_vm.swap_endian b0 b1)) h' (by omega)
        refine ⟨m', by rw [lc3_vm.loadLoop, hmod]; exact hok, ?_, ?_⟩
        · intro i hi
          cases i with
          | zero =>
            have hm0 : m' origin = upd memory origin (lc3_vm.swap_endian b0 b1) origin :=
              hframe origin (fun j _ => by omega)
            rw [show origin + 0 = origin from by omega, hm0, upd_same]
            simp
          | succ k =>
            have hk : 2 * k + 1 < rest.length := by
              simp [List.length_cons] at hi
              omega
            have hgk := hget k hk
            rw [show origin + (k + 1) = origin + 1 + k from by omega, hgk]
            rw [show 2 * (k + 1) = 2 * k + 1 + 1 from by omega]
            simp only [List.getD_cons_succ]
        · intro c hc
          have hcne : c ≠ origin := by
            have := hc 0 (by simp [List.length_cons])
            omega
          have h2 : ∀ j, 2 * j + 1 < rest.length → c ≠ origin + 1 + j := by
            intro j hj
            have := hc (j + 1) (by simp [List.length_cons]; omega)
            omega
          rw [hframe c h2, upd_ne _ hcne]
      · have ho : origin = 65535 := by omega
        have hrest : rest.length = 0 := by omega
        have hnil : rest = [] := List.eq_nil_of_length_eq_zero hrest
        subst hnil
        subst ho
        refine ⟨upd memory 65535 (lc3_vm.swap_endian b0 b1), rfl, ?_, ?_⟩
        · intro i hi
          have hi0 : i = 0 := by
            simp [List.length_cons] at hi
            omega
          subst hi0
          rw [show (65535 : Nat) + 0 = 65535 from rfl, upd_same]
          simp
        · intro c hc
          have hcne : c ≠ 65535 := by
            have := hc 0 (by simp [List.length_cons])
            omega
          exact upd_ne _ hcne _

/-- C3: (counterexample) A one-byte stream — a short origin read — does
NOT fail fatally: `read_program` completes successfully, leaving memory
untouched (the unread buffer byte stays zero, `File::read` reports the
short count as `Ok` and `expect` does not fire). -/
theorem read_program_short_origin_no_abort :
    lc3_vm.read_program [48] (fun _ => 0) = Except.ok (fun _ => 0) ∧
    lc3_vm.read_program ([] : List Nat) (fun _ => 0) = Except.ok (fun _ => 0) := by
  exact ⟨rfl, rfl⟩

/-- C3: (amended) The loader reads a 16-bit big-endian origin word and
then successive big-endian words, writing word i to address origin + i;
it fails fatally exactly when, after the origin bytes, an odd number of
bytes remains (equivalently, the whole stream has odd length at least 3
— a truncated final word).  A short origin read (a stream of fewer than
2 bytes) does not abort: the loader completes without writing anything. -/
theorem read_program_spec :
    (∀ (bytes : List Nat) (memory : Nat → Nat),
       bytes.length % 2 = 1 → 3 ≤ bytes.length →
       lc3_vm.read_program bytes memory
         = Except.error ("Unexpected error reading program.")) ∧
    (∀ (bytes : List Nat) (memory : Nat → Nat), bytes.length ≤ 1 →
       lc3_vm.read_program bytes memory = Except.ok memory) ∧
    (∀ (b0 b1 : Nat) (rest : List Nat) (memory : Nat → Nat),
       rest.length % 2 = 0 →
       lc3_vm.swap_endian b0 b1 + rest.length / 2 ≤ 65536 →
       ∃ m', lc3_vm.read_program (b0 :: b1 :: rest) memory = Except.ok m' ∧
         (∀ i, 2 * i + 1 < rest.length →
            m' (lc3_vm.swap_endian b0 b1 + i)
              = lc3_vm.swap_endian (rest.getD (2 * i) 0) (rest.getD (2 * i + 1) 0)) ∧
         (∀ c, (∀ j, 2 * j + 1 < rest.length → c ≠ lc3_vm.swap_endian b0 b1 + j) →
            m' c = memory c)) := by
  refine ⟨?_, ?_, ?_⟩
  · intro bytes memory hodd hlen
    cases bytes with
    | nil => simp at hlen
    | cons b0 tl =>
      cases tl with
      | nil => simp at hlen
      | cons b1 rest =>
        have h' : rest.length % 2 = 1 := by
          simp [List.length_cons] at hodd
          omega
        exact loadLoop_odd rest (lc3_vm.swap_endian b0 b1) memory h'
  · intro bytes memory hlen
    cases bytes with
    | nil => rfl
    | cons b0 tl =>
      cases tl with
      | nil => rfl
      | cons b1 rest => simp [List.length_cons] at hlen
  · intro b0 b1 rest memory heven hle
    exact loadLoop_even rest (lc3_vm.swap_endian b0 b1) memory heven hle

/-- C3: witness for `read_program_spec` — the 4-byte stream
[0x30, 0x00, 0x12, 0x34] loads origin 0x3000 and memory[0x3000] = 0x1234,
the 1-byte stream [0x30] loads without aborting, and the 3-byte stream
[1, 2, 3] aborts with the truncated-word error. -/
theorem read_program_spec_witness :
    (∃ m', lc3_vm.read_program [48, 0, 18, 52] (fun _ => 0) = Except.ok m' ∧
       m' 12288 = 4660) ∧
    lc3_vm.read_program [48] (fun _ => 0) = Except.ok (fun _ => 0) ∧
    lc3_vm.read_program [1, 2, 3] (fun _ => 0)
      = Except.error ("Unexpected error reading program.") := by
  refine ⟨?_, read_program_spec.2.1 [48] (fun _ => 0) (by decide),
    read_program_spec.1 [1, 2, 3] (fun _ => 0) (by decide) (by decide)⟩
  obtain ⟨m', hok, hget, _⟩ :=
    read_program_spec.2.2 48 0 [18, 52] (fun _ => 0) (by decide) (by decide)
  refine ⟨m', hok, ?_⟩
  have h := hget 0 (by decide)
  rw [show lc3_vm.swap_endian 48 0 + 0 = 12288 from by decide,
    show lc3_vm.swap_endian ([18, 52].getD (2 * 0) 0) ([18, 52].getD (2 * 0 + 1) 0) = 4660
      from by decide] at h
  exact h
